import Mathlib

/-
Verification of the sensor-module firmware (src/src/main.cpp) against its
natural-language specification.

Modelling conventions:
- C float arithmetic is modelled exactly over the rationals (ℚ); the claims
  under study are about the algorithms (clamping, fixed-point rounding,
  piecewise-linear interpolation), not about binary float rounding.
- uint8_t / uint32_t values that stay far from their wrap points are
  modelled as ℕ; the cast (uint32_t)(x) on a non-negative value is
  truncation toward zero, i.e. Int.toNat of the floor.
- The ADC sample source is modelled as a stream (List ℕ) of raw 12-bit
  conversion results; each HAL_ADC poll consumes one element.
- In-memory byte buffers are List ℕ; a C store buf[i] = v is List.set.
-/

namespace SensorModule

/-- CalibrationPoint from main.cpp: one anchor of a per-channel table,
a measured voltage paired with the reference diameter in millimeters. -/
structure CalibrationPoint where
  voltage : ℚ
  diameter_mm : ℚ
deriving DecidableEq

/-- One per-channel calibration table: exactly 3 points, indexed 0..2. -/
abbrev CalTable := Fin 3 → CalibrationPoint

/-- calibration_tables from main.cpp: two channels, each initialized with
the same three default anchors (1.0 V, 1.50 mm), (1.65 V, 1.75 mm),
(2.3 V, 2.00 mm). -/
def calibration_tables : Fin 2 → CalTable := fun _ p =>
  match p with
  | 0 => ⟨1, 3/2⟩
  | 1 => ⟨33/20, 7/4⟩
  | 2 => ⟨23/10, 2⟩

/-- Body of convert_voltage_to_mm for a valid channel (main.cpp lines
375-394), with the local variables denom and slope inlined: if the input
voltage is at or below point 1's voltage, interpolate between points 0 and
1, else between points 1 and 2; each branch first applies the degenerate
denominator guard fabs(denom) < 0.0001 and returns the lower anchor's
diameter when it fires. -/
def interpolate_table (table : CalTable) (voltage : ℚ) : ℚ :=
  if voltage ≤ (table 1).voltage then
    if |(table 1).voltage - (table 0).voltage| < 1/10000 then
      (table 0).diameter_mm
    else
      (table 0).diameter_mm +
        ((table 1).diameter_mm - (table 0).diameter_mm) /
          ((table 1).voltage - (table 0).voltage) * (voltage - (table 0).voltage)
  else
    if |(table 2).voltage - (table 1).voltage| < 1/10000 then
      (table 1).diameter_mm
    else
      (table 1).diameter_mm +
        ((table 2).diameter_mm - (table 1).diameter_mm) /
          ((table 2).voltage - (table 1).voltage) * (voltage - (table 1).voltage)

/-- convert_voltage_to_mm from main.cpp: the safety check
`if (sensor_idx >= 2) return 1.75f` followed by the piecewise-linear
interpolation over the selected channel's table. -/
def convert_voltage_to_mm (tables : Fin 2 → CalTable) (voltage : ℚ)
    (sensor_idx : ℕ) : ℚ :=
  if h : 2 ≤ sensor_idx then 7/4
  else interpolate_table (tables ⟨sensor_idx, by omega⟩) voltage

/-- Helper: on a valid channel index the safety branch is not taken. -/
theorem convert_voltage_to_mm_valid (tables : Fin 2 → CalTable) (v : ℚ)
    (i : Fin 2) :
    convert_voltage_to_mm tables v i.val = interpolate_table (tables i) v := by
  unfold convert_voltage_to_mm
  rw [dif_neg (by omega : ¬ 2 ≤ i.val)]

/-- Spec-side definition: the linear function through two calibration
anchors, evaluated at x (the formula the spec calls interpolating
"linearly between" two points). -/
def line_through (p q : CalibrationPoint) (x : ℚ) : ℚ :=
  p.diameter_mm +
    (q.diameter_mm - p.diameter_mm) / (q.voltage - p.voltage) * (x - p.voltage)

/-- Helper: the line through p and q passes through q when the two
voltages differ. -/
theorem line_through_right (p q : CalibrationPoint) (h : q.voltage ≠ p.voltage) :
    line_through p q q.voltage = q.diameter_mm := by
  unfold line_through
  rw [div_mul_cancel₀ _ (sub_ne_zero.mpr h)]
  ring

/-- Clamp of format_sensor_data (main.cpp lines 432-433): values below 0.0
go to 0.0, values above 9.9999 go to 9.9999. -/
def clamp_mm (val : ℚ) : ℚ :=
  if val < 0 then 0
  else if val > 99999/10000 then 99999/10000
  else val

/-- format_sensor_data from main.cpp: clamp to [0.0, 9.9999], convert to
fixed point via (uint32_t)(val * 10000.0f + 0.5f), then emit the five
decimal digits most significant first via (int_val / 10^(4-k)) % 10. -/
def format_sensor_data (val : ℚ) : List ℕ :=
  let v := clamp_mm val
  let int_val : ℕ := Int.toNat ⌊v * 10000 + 1/2⌋
  [int_val / 10000 % 10, int_val / 1000 % 10, int_val / 100 % 10,
   int_val / 10 % 10, int_val / 1 % 10]

/-- update_buffer from main.cpp: the contents of the 10-byte shared
tx_buffer after both format_sensor_data calls have returned, channel 0
digits in bytes 0-4 and channel 1 digits in bytes 5-9. -/
def update_buffer (sensor1_mm sensor2_mm : ℚ) : List ℕ :=
  format_sensor_data sensor1_mm ++ format_sensor_data sensor2_mm

/-- Byte stores performed by update_buffer in program order: the first
format_sensor_data call stores the five digits of sensor1_mm into
tx_buffer[0..4], the second stores the digits of sensor2_mm into
tx_buffer[5..9]; each pair is (index, stored digit). -/
def update_buffer_stores (sensor1_mm sensor2_mm : ℚ) : List (ℕ × ℕ) :=
  ((List.range 5).map fun k => (k, (format_sensor_data sensor1_mm).getD k 0)) ++
    ((List.range 5).map fun k => (5 + k, (format_sensor_data sensor2_mm).getD k 0))

/-- Successive contents of the shared tx_buffer while update_buffer runs,
starting from its previous contents. The source stores each byte directly
into the shared tx_buffer, and neither update_buffer nor its caller in the
main loop masks the I2C interrupt, so every state listed here is
observable by a concurrent bus read. -/
def update_buffer_trace (old : List ℕ) (sensor1_mm sensor2_mm : ℚ) :
    List (List ℕ) :=
  (update_buffer_stores sensor1_mm sensor2_mm).scanl
    (fun buf iv => buf.set iv.1 iv.2) old

/-- Modelled from the spec: the bus transaction collaborator transmit
capability sends count bytes from the given buffer verbatim, with no
transformation; main.cpp always arms it as
HAL_I2C_Slave_Transmit_IT(&hi2c1, tx_buffer, 10). -/
def i2c_slave_transmit (buf : List ℕ) (count : ℕ) : List ℕ :=
  buf.take count

/-- read_sensor_voltage from main.cpp: configures the channel, starts one
ADC conversion and polls for it; on success the returned voltage is
rawValue * 3.3 / 4095 for the single 12-bit conversion result, and the
initial value 0.0 is returned when polling fails (modelled as an empty
sample stream). Exactly one sample is consumed per call. -/
def read_sensor_voltage (samples : List ℕ) : ℚ × List ℕ :=
  match samples with
  | [] => (0, [])
  | rawValue :: rest => ((rawValue : ℚ) * (33/10) / 4095, rest)

/-- measure_sensor_values from main.cpp: read the channel 0 voltage and
convert it to sensor1_mm, then read the channel 1 voltage and convert it
to sensor2_mm; the result pairs the two millimeter values with the
remaining sample stream. -/
def measure_sensor_values (tables : Fin 2 → CalTable) (samples : List ℕ) :
    (ℚ × ℚ) × List ℕ :=
  let r1 := read_sensor_voltage samples
  let r2 := read_sensor_voltage r1.2
  ((convert_voltage_to_mm tables r1.1 0, convert_voltage_to_mm tables r2.1 1), r2.2)

/-- DiagnosticEvent: the event vocabulary of the specification
(read-addressed, write-addressed, write-general, write/read-error,
peripheral-reinitialized). The source under src/ defines no such type;
the vocabulary is needed to state what the error callback publishes. -/
inductive DiagnosticEvent where
  | readAddressed
  | writeAddressed
  | writeGeneral
  | writeReadError
  | peripheralReinitialized
deriving DecidableEq

/-- Actions a bus callback can perform, covering both what the source does
(re-arm the slave transmission) and what the specification requires of
error handling (publish a diagnostic event, stop the peripheral, reapply
its address and frequency configuration). -/
inductive I2CAction where
  | rearmSlaveTransmit (buf : List ℕ) (count : ℕ)
  | publishDiagnostic (ev : DiagnosticEvent)
  | peripheralStop
  | peripheralReinitConfig (ownAddress clockSpeed : ℕ)
deriving DecidableEq

/-- HAL_I2C_ErrorCallback from main.cpp: when the erroring instance is
I2C1, the body simply re-arms HAL_I2C_Slave_Transmit_IT with the 10-byte
tx_buffer; for any other instance it does nothing. -/
def HAL_I2C_ErrorCallback (isI2C1 : Bool) (tx_buffer : List ℕ) :
    List I2CAction :=
  if isI2C1 then [I2CAction.rearmSlaveTransmit tx_buffer 10] else []

/-- Diagnostic events published by a list of actions, in order. -/
def publishedEvents (acts : List I2CAction) : List DiagnosticEvent :=
  acts.filterMap fun a =>
    match a with
    | I2CAction.publishDiagnostic ev => some ev
    | _ => none

/-- Global mutable state relevant to startup: the shared tx_buffer and the
two sensor value globals. -/
structure MainState where
  tx_buffer : List ℕ
  sensor1_mm : ℚ
  sensor2_mm : ℚ
deriving DecidableEq

/-- Global state at reset (main.cpp lines 21-22 and 410): tx_buffer is a
zero-initialized 10-byte array and the sensor globals hold the dummy
defaults 1.75. -/
def resetState : MainState :=
  { tx_buffer := List.replicate 10 0, sensor1_mm := 7/4, sensor2_mm := 7/4 }

/-- Bytes armed for slave transmission by main before its loop starts:
main calls HAL_I2C_Slave_Transmit_IT(&hi2c1, tx_buffer, 10) right after
peripheral and OLED initialization, and no statement executed before that
call writes tx_buffer or the sensor globals, so the armed bytes are the
reset contents of tx_buffer. -/
def armed_startup_buffer : List ℕ :=
  i2c_slave_transmit resetState.tx_buffer 10

/-- Modelled from the spec: the host-side decoder reconstructs
digits[0] + digits[1]*0.1 + digits[2]*0.01 + digits[3]*0.001 +
digits[4]*0.0001 from one 5-byte field (the same formula is recorded in
the format_sensor_data comment in main.cpp). -/
def host_decode (field : List ℕ) : ℚ :=
  (field.getD 0 0 : ℚ) + (field.getD 1 0 : ℚ) / 10 +
    (field.getD 2 0 : ℚ) / 100 + (field.getD 3 0 : ℚ) / 1000 +
    (field.getD 4 0 : ℚ) / 10000

/-- Table whose first two anchors share one voltage: the degenerate case
handled by the guard in convert_voltage_to_mm. -/
def degenerate_tables : Fin 2 → CalTable := fun _ p =>
  match p with
  | 0 => ⟨1, 3/2⟩
  | 1 => ⟨1, 7/4⟩
  | 2 => ⟨23/10, 2⟩

/-- Table with strictly ascending voltages and strictly ascending
diameters whose first segment is only 1/20000 V wide, i.e. inside the
epsilon of the degenerate-denominator guard. -/
def near_degenerate_tables : Fin 2 → CalTable := fun _ p =>
  match p with
  | 0 => ⟨1, 3/2⟩
  | 1 => ⟨20001/20000, 7/4⟩
  | 2 => ⟨23/10, 2⟩

/-! Helper lemmas shared by the claim theorems. -/

/-- Helper: the default table entries, one channel at a time. -/
theorem calibration_tables_eval (c : Fin 2) :
    calibration_tables c 0 = ⟨1, 3/2⟩ ∧ calibration_tables c 1 = ⟨33/20, 7/4⟩ ∧
      calibration_tables c 2 = ⟨23/10, 2⟩ :=
  ⟨rfl, rfl, rfl⟩

/-- Helper: the degenerate table entries. -/
theorem degenerate_tables_eval (c : Fin 2) :
    degenerate_tables c 0 = ⟨1, 3/2⟩ ∧ degenerate_tables c 1 = ⟨1, 7/4⟩ ∧
      degenerate_tables c 2 = ⟨23/10, 2⟩ :=
  ⟨rfl, rfl, rfl⟩

/-- Helper: the near-degenerate table entries. -/
theorem near_degenerate_tables_eval (c : Fin 2) :
    near_degenerate_tables c 0 = ⟨1, 3/2⟩ ∧
      near_degenerate_tables c 1 = ⟨20001/20000, 7/4⟩ ∧
      near_degenerate_tables c 2 = ⟨23/10, 2⟩ :=
  ⟨rfl, rfl, rfl⟩

/-- Helper: the clamp of the encoder is exactly the clamp of the input to
the interval from 0 to 9.9999. -/
theorem clamp_mm_eq_min_max (v : ℚ) :
    clamp_mm v = min (max v 0) (99999/10000) := by
  unfold clamp_mm
  rcases lt_or_le v 0 with h | h
  · rw [if_pos h, max_eq_right h.le,
      min_eq_left (by norm_num : (0:ℚ) ≤ 99999/10000)]
  · rw [if_neg (not_lt.mpr h), max_eq_left h]
    rcases lt_or_le (99999/10000 : ℚ) v with h2 | h2
    · rw [if_pos h2, min_eq_right h2.le]
    · rw [if_neg (not_lt.mpr h2), min_eq_left h2]

/-- Helper: the encoding of the default 1.75 mm value. -/
theorem format_sensor_data_of_default :
    format_sensor_data (7/4) = [1, 7, 5, 0, 0] := by
  norm_num [format_sensor_data, clamp_mm]
  decide

/-- Helper: the encoding of 2.0 mm. -/
theorem format_sensor_data_of_two :
    format_sensor_data 2 = [2, 0, 0, 0, 0] := by
  norm_num [format_sensor_data, clamp_mm]
  decide

/-! Claim theorems. -/

/-- C2: for every input value v the telemetry encoder first clamps v to
the interval from 0.0 to 9.9999, then computes the round-half-up fixed
point value as the floor of v*10000 + 0.5, and emits exactly five bytes,
most significant decimal digit first, byte k holding
(int_val / 10^(4-k)) % 10; in particular the encodings of -1.0 and 0.0
agree, as do the encodings of 15.0 and 9.9999. -/
theorem c2_telemetry_encoder (v : ℚ) :
    clamp_mm v = min (max v 0) (99999/10000) ∧
    format_sensor_data v =
      (List.range 5).map
        (fun k => Int.toNat ⌊clamp_mm v * 10000 + 1/2⌋ / 10 ^ (4 - k) % 10) ∧
    (format_sensor_data v).length = 5 ∧
    format_sensor_data (-1) = format_sensor_data 0 ∧
    format_sensor_data 15 = format_sensor_data (99999/10000) := by
  refine ⟨clamp_mm_eq_min_max v, rfl, rfl, ?_, ?_⟩
  · norm_num [format_sensor_data, clamp_mm]
  · norm_num [format_sensor_data, clamp_mm]

/-- C4: the buffer published by update_buffer is exactly 10 bytes, bytes
0-4 the five-digit encoding of the channel 0 measurement and bytes 5-9
the identical encoding of channel 1, and the armed slave transmission of
10 bytes sends that buffer verbatim with no transformation. -/
theorem c4_wire_format (s1 s2 : ℚ) :
    (update_buffer s1 s2).length = 10 ∧
    (update_buffer s1 s2).take 5 = format_sensor_data s1 ∧
    (update_buffer s1 s2).drop 5 = format_sensor_data s2 ∧
    i2c_slave_transmit (update_buffer s1 s2) 10 = update_buffer s1 s2 :=
  ⟨rfl, rfl, rfl, rfl⟩

/-- C8: for every channel index outside 0 and 1 (as an unsigned byte,
every index at least 2) and every input voltage, convert_voltage_to_mm
returns the fixed safe default 1.75 mm without reading any table. -/
theorem c8_invalid_channel_default (tables : Fin 2 → CalTable) (voltage : ℚ)
    (sensor_idx : ℕ) (h : 2 ≤ sensor_idx) :
    convert_voltage_to_mm tables voltage sensor_idx = 7/4 := by
  unfold convert_voltage_to_mm
  rw [dif_pos h]

/-- C8 witness: channel index 5 with the default tables yields 1.75 mm. -/
theorem c8_invalid_channel_default_witness :
    2 ≤ 5 ∧ convert_voltage_to_mm calibration_tables 0 5 = 7/4 :=
  ⟨by norm_num, c8_invalid_channel_default calibration_tables 0 5 (by norm_num)⟩

/-- C3: for every channel whose 3-point table has voltages ascending by at
least the guard epsilon per segment (a valid ordered table) and every
input r, the interpolation equals the line through anchors 0 and 1 at r
when r is at or below the middle anchor voltage, and the line through
anchors 1 and 2 at r otherwise; at exactly the middle anchor voltage both
lines give the same result. -/
theorem c3_piecewise_interpolation (tables : Fin 2 → CalTable) (i : Fin 2)
    (r : ℚ)
    (h01 : (tables i 0).voltage + 1/10000 ≤ (tables i 1).voltage)
    (h12 : (tables i 1).voltage + 1/10000 ≤ (tables i 2).voltage) :
    (r ≤ (tables i 1).voltage →
      convert_voltage_to_mm tables r i.val =
        line_through (tables i 0) (tables i 1) r) ∧
    ((tables i 1).voltage < r →
      convert_voltage_to_mm tables r i.val =
        line_through (tables i 1) (tables i 2) r) ∧
    line_through (tables i 0) (tables i 1) ((tables i 1).voltage) =
      line_through (tables i 1) (tables i 2) ((tables i 1).voltage) := by
  rw [convert_voltage_to_mm_valid]
  refine ⟨?_, ?_, ?_⟩
  · intro hr
    unfold interpolate_table line_through
    rw [if_pos hr, if_neg (by rw [abs_of_pos (by linarith)]; linarith)]
  · intro hr
    unfold interpolate_table line_through
    rw [if_neg (not_le.mpr hr), if_neg (by rw [abs_of_pos (by linarith)]; linarith)]
  · rw [line_through_right _ _ (ne_of_gt (by linarith))]
    simp [line_through]

/-- C3 witness: on the default table, input 1.0 V on channel 0 lies below
the middle anchor and the interpolation equals the line through anchors 0
and 1 there. -/
theorem c3_piecewise_interpolation_witness :
    (calibration_tables 0 0).voltage + 1/10000 ≤ (calibration_tables 0 1).voltage ∧
    (calibration_tables 0 1).voltage + 1/10000 ≤ (calibration_tables 0 2).voltage ∧
    (1 : ℚ) ≤ (calibration_tables 0 1).voltage ∧
    convert_voltage_to_mm calibration_tables 1 0 =
      line_through (calibration_tables 0 0) (calibration_tables 0 1) 1 := by
  obtain ⟨e0, e1, e2⟩ := calibration_tables_eval 0
  refine ⟨?_, ?_, ?_, ?_⟩
  · rw [e0, e1]; norm_num
  · rw [e1, e2]; norm_num
  · rw [e1]; norm_num
  · exact (c3_piecewise_interpolation calibration_tables 0 1
      (by rw [e0, e1]; norm_num) (by rw [e1, e2]; norm_num)).1
      (by rw [e1]; norm_num)

/-- C7: for every channel and input, when the two voltages of the chosen
interpolation segment are closer than the epsilon 0.0001, the conversion
returns the lower anchor diameter unchanged instead of dividing, and the
division formula (the line through the two anchors) is only used when the
segment width is at least the epsilon. -/
theorem c7_degenerate_guard (tables : Fin 2 → CalTable) (i : Fin 2) (r : ℚ) :
    (r ≤ (tables i 1).voltage →
      (|(tables i 1).voltage - (tables i 0).voltage| < 1/10000 →
        convert_voltage_to_mm tables r i.val = (tables i 0).diameter_mm) ∧
      (1/10000 ≤ |(tables i 1).voltage - (tables i 0).voltage| →
        convert_voltage_to_mm tables r i.val =
          line_through (tables i 0) (tables i 1) r)) ∧
    ((tables i 1).voltage < r →
      (|(tables i 2).voltage - (tables i 1).voltage| < 1/10000 →
        convert_voltage_to_mm tables r i.val = (tables i 1).diameter_mm) ∧
      (1/10000 ≤ |(tables i 2).voltage - (tables i 1).voltage| →
        convert_voltage_to_mm tables r i.val =
          line_through (tables i 1) (tables i 2) r)) := by
  rw [convert_voltage_to_mm_valid]
  constructor
  · intro hr
    constructor
    · intro hd
      unfold interpolate_table
      rw [if_pos hr, if_pos hd]
    · intro hd
      unfold interpolate_table line_through
      rw [if_pos hr, if_neg (not_lt.mpr hd)]
  · intro hr
    constructor
    · intro hd
      unfold interpolate_table
      rw [if_neg (not_le.mpr hr), if_pos hd]
    · intro hd
      unfold interpolate_table line_through
      rw [if_neg (not_le.mpr hr), if_neg (not_lt.mpr hd)]

/-- C7 witness: on the degenerate table whose anchors 0 and 1 share the
voltage 1.0 V, the conversion of 0.5 V on channel 0 returns the anchor 0
diameter 1.50 mm unchanged. -/
theorem c7_degenerate_guard_witness :
    (1/2 : ℚ) ≤ (degenerate_tables 0 1).voltage ∧
    |(degenerate_tables 0 1).voltage - (degenerate_tables 0 0).voltage| < 1/10000 ∧
    convert_voltage_to_mm degenerate_tables (1/2) 0 =
      (degenerate_tables 0 0).diameter_mm := by
  obtain ⟨e0, e1, e2⟩ := degenerate_tables_eval 0
  refine ⟨?_, ?_, ?_⟩
  · rw [e1]; norm_num
  · rw [e0, e1]; norm_num
  · exact ((c7_degenerate_guard degenerate_tables 0 (1/2)).1
      (by rw [e1]; norm_num)).1 (by rw [e0, e1]; norm_num)

/-- C9 counterexample: a table with strictly ascending voltages and
strictly ascending diameters on which the claim fails. Anchors 0 and 1 are
1/20000 V apart, inside the guard epsilon, so for the input 0.5 V (strictly
below the low anchor) the conversion returns the low anchor diameter
1.50 mm itself: it does not equal the line through anchors 0 and 1 at
0.5 V and it is not strictly less than the low anchor diameter. -/
theorem c9_counterexample :
    (near_degenerate_tables 0 0).voltage < (near_degenerate_tables 0 1).voltage ∧
    (near_degenerate_tables 0 1).voltage < (near_degenerate_tables 0 2).voltage ∧
    (near_degenerate_tables 0 0).diameter_mm <
      (near_degenerate_tables 0 1).diameter_mm ∧
    (near_degenerate_tables 0 1).diameter_mm <
      (near_degenerate_tables 0 2).diameter_mm ∧
    (1/2 : ℚ) < (near_degenerate_tables 0 0).voltage ∧
    convert_voltage_to_mm near_degenerate_tables (1/2) 0 =
      (near_degenerate_tables 0 0).diameter_mm ∧
    convert_voltage_to_mm near_degenerate_tables (1/2) 0 ≠
      line_through (near_degenerate_tables 0 0) (near_degenerate_tables 0 1) (1/2) ∧
    ¬ convert_voltage_to_mm near_degenerate_tables (1/2) 0 <
      (near_degenerate_tables 0 0).diameter_mm := by
  obtain ⟨e0, e1, e2⟩ := near_degenerate_tables_eval 0
  have hc : convert_voltage_to_mm near_degenerate_tables (1/2) 0 =
      (near_degenerate_tables 0 0).diameter_mm := by
    rw [show (0 : ℕ) = (0 : Fin 2).val from rfl, convert_voltage_to_mm_valid]
    unfold interpolate_table
    rw [if_pos (by rw [e1]; norm_num), if_pos (by rw [e0, e1, abs_lt]; norm_num)]
  rw [hc, e0, e1, e2]
  unfold line_through
  norm_num

/-- C9 (amended): for a table whose voltages ascend by at least the guard
epsilon per segment and whose diameters strictly ascend,
convert_voltage_to_mm linearly extrapolates rather than clamping: every
input strictly below the low anchor voltage yields the value of the line
through anchors 0 and 1 there, strictly less than the low anchor diameter,
and every input strictly above the high anchor voltage yields the value of
the line through anchors 1 and 2 there, strictly greater than the high
anchor diameter. -/
theorem c9_linear_extrapolation (tables : Fin 2 → CalTable) (i : Fin 2)
    (r : ℚ)
    (h01 : (tables i 0).voltage + 1/10000 ≤ (tables i 1).voltage)
    (h12 : (tables i 1).voltage + 1/10000 ≤ (tables i 2).voltage)
    (hd01 : (tables i 0).diameter_mm < (tables i 1).diameter_mm)
    (hd12 : (tables i 1).diameter_mm < (tables i 2).diameter_mm) :
    (r < (tables i 0).voltage →
      convert_voltage_to_mm tables r i.val =
        line_through (tables i 0) (tables i 1) r ∧
      convert_voltage_to_mm tables r i.val < (tables i 0).diameter_mm) ∧
    ((tables i 2).voltage < r →
      convert_voltage_to_mm tables r i.val =
        line_through (tables i 1) (tables i 2) r ∧
      (tables i 2).diameter_mm < convert_voltage_to_mm tables r i.val) := by
  rw [convert_voltage_to_mm_valid]
  constructor
  · intro hr
    have heq : interpolate_table (tables i) r =
        line_through (tables i 0) (tables i 1) r := by
      unfold interpolate_table line_through
      rw [if_pos (by linarith), if_neg (by rw [abs_of_pos (by linarith)]; linarith)]
    refine ⟨heq, ?_⟩
    rw [heq]
    unfold line_through
    have hs : 0 < ((tables i 1).diameter_mm - (tables i 0).diameter_mm) /
        ((tables i 1).voltage - (tables i 0).voltage) :=
      div_pos (by linarith) (by linarith)
    have hprod := mul_pos hs (show (0:ℚ) < (tables i 0).voltage - r by linarith)
    nlinarith [hprod]
  · intro hr
    have heq : interpolate_table (tables i) r =
        line_through (tables i 1) (tables i 2) r := by
      unfold interpolate_table line_through
      rw [if_neg (by push_neg; linarith),
        if_neg (by rw [abs_of_pos (by linarith)]; linarith)]
    refine ⟨heq, ?_⟩
    rw [heq]
    unfold line_through
    have hs : 0 < ((tables i 2).diameter_mm - (tables i 1).diameter_mm) /
        ((tables i 2).voltage - (tables i 1).voltage) :=
      div_pos (by linarith) (by linarith)
    have hcancel : ((tables i 2).diameter_mm - (tables i 1).diameter_mm) /
        ((tables i 2).voltage - (tables i 1).voltage) *
        ((tables i 2).voltage - (tables i 1).voltage) =
        (tables i 2).diameter_mm - (tables i 1).diameter_mm :=
      div_mul_cancel₀ _ (sub_ne_zero.mpr (ne_of_gt (by linarith)))
    have hprod := mul_pos hs (show (0:ℚ) < r - (tables i 2).voltage by linarith)
    nlinarith [hprod, hcancel]

/-- C9 witness: on the default table, the input 0 V on channel 0 is
strictly below the low anchor and the conversion extrapolates along the
line through anchors 0 and 1, strictly below 1.50 mm. -/
theorem c9_linear_extrapolation_witness :
    (0 : ℚ) < (calibration_tables 0 0).voltage ∧
    convert_voltage_to_mm calibration_tables 0 0 =
      line_through (calibration_tables 0 0) (calibration_tables 0 1) 0 ∧
    convert_voltage_to_mm calibration_tables 0 0 <
      (calibration_tables 0 0).diameter_mm := by
  obtain ⟨e0, e1, e2⟩ := calibration_tables_eval 0
  have h := (c9_linear_extrapolation calibration_tables 0 0
    (by rw [e0, e1]; norm_num) (by rw [e1, e2]; norm_num)
    (by rw [e0, e1]; norm_num) (by rw [e1, e2]; norm_num)).1
    (by rw [e0]; norm_num)
  exact ⟨by rw [e0]; norm_num, h.1, h.2⟩

/-- C1 counterexample: update_buffer does not stage the replacement value
in private scratch memory: it stores directly into the shared buffer, so
with old contents encoding (1.75, 1.75) and new values (2.0, 2.0) the
state after the very first byte store, [2,7,5,0,0,1,7,5,0,0], is
observable by a concurrent bus read, and it is torn: it is neither the old
snapshot nor the new one, and its channel 0 field is not the encoding of
any of the two measured values. -/
theorem c1_counterexample :
    update_buffer (7/4) (7/4) = [1, 7, 5, 0, 0, 1, 7, 5, 0, 0] ∧
    update_buffer 2 2 = [2, 0, 0, 0, 0, 2, 0, 0, 0, 0] ∧
    (update_buffer_trace [1, 7, 5, 0, 0, 1, 7, 5, 0, 0] 2 2).getD 1 [] =
      [2, 7, 5, 0, 0, 1, 7, 5, 0, 0] ∧
    [2, 7, 5, 0, 0, 1, 7, 5, 0, 0] ∈
      update_buffer_trace [1, 7, 5, 0, 0, 1, 7, 5, 0, 0] 2 2 ∧
    ([2, 7, 5, 0, 0, 1, 7, 5, 0, 0] : List ℕ) ≠ update_buffer (7/4) (7/4) ∧
    ([2, 7, 5, 0, 0, 1, 7, 5, 0, 0] : List ℕ) ≠ update_buffer 2 2 ∧
    List.take 5 [2, 7, 5, 0, 0, 1, 7, 5, 0, 0] ≠ format_sensor_data (7/4) ∧
    List.take 5 [2, 7, 5, 0, 0, 1, 7, 5, 0, 0] ≠ format_sensor_data 2 := by
  have h1 := format_sensor_data_of_default
  have h2 := format_sensor_data_of_two
  have hs : update_buffer_stores 2 2 =
      [(0, 2), (1, 0), (2, 0), (3, 0), (4, 0),
       (5, 2), (6, 0), (7, 0), (8, 0), (9, 0)] := by
    unfold update_buffer_stores
    rw [h2]
    decide
  have ht : update_buffer_trace [1, 7, 5, 0, 0, 1, 7, 5, 0, 0] 2 2 =
      [[1, 7, 5, 0, 0, 1, 7, 5, 0, 0],
       [2, 7, 5, 0, 0, 1, 7, 5, 0, 0],
       [2, 0, 5, 0, 0, 1, 7, 5, 0, 0],
       [2, 0, 0, 0, 0, 1, 7, 5, 0, 0],
       [2, 0, 0, 0, 0, 1, 7, 5, 0, 0],
       [2, 0, 0, 0, 0, 1, 7, 5, 0, 0],
       [2, 0, 0, 0, 0, 2, 7, 5, 0, 0],
       [2, 0, 0, 0, 0, 2, 0, 5, 0, 0],
       [2, 0, 0, 0, 0, 2, 0, 0, 0, 0],
       [2, 0, 0, 0, 0, 2, 0, 0, 0, 0],
       [2, 0, 0, 0, 0, 2, 0, 0, 0, 0]] := by
    unfold update_buffer_trace
    rw [hs]
    decide
  refine ⟨?_, ?_, ?_, ?_, ?_, ?_, ?_, ?_⟩
  · unfold update_buffer; rw [h1]; decide
  · unfold update_buffer; rw [h2]; decide
  · rw [ht]; decide
  · rw [ht]; decide
  · unfold update_buffer; rw [h1]; decide
  · unfold update_buffer; rw [h2]; decide
  · rw [h1]; decide
  · rw [h2]; decide

/-- C1 (amended): update_buffer builds nothing in private scratch memory
and uses no exclusive-access section: it performs its ten byte stores
directly and successively on the shared buffer, so all ten intermediate
states (plus the initial one, eleven in total) are individually observable
by a concurrent bus read; already after the first store the shared buffer
holds the old bytes with only byte 0 replaced, so a concurrent read can
observe a torn value. -/
theorem c1_in_place_unprotected_write (old : List ℕ) (s1 s2 : ℚ) :
    (update_buffer_trace old s1 s2).length = 11 ∧
    (update_buffer_trace old s1 s2).getD 0 [] = old ∧
    (update_buffer_trace old s1 s2).getD 1 [] =
      old.set 0 ((format_sensor_data s1).getD 0 0) :=
  ⟨rfl, rfl, rfl⟩

/-- C5 counterexample: on a transfer error on I2C1 the error callback
publishes no diagnostic event at all (in particular neither a
write/read-error nor a peripheral-reinitialized event) and performs no
peripheral stop or reconfiguration; its only action is to re-arm the
10-byte slave transmission. -/
theorem c5_counterexample :
    HAL_I2C_ErrorCallback true (List.replicate 10 0) =
      [I2CAction.rearmSlaveTransmit (List.replicate 10 0) 10] ∧
    publishedEvents (HAL_I2C_ErrorCallback true (List.replicate 10 0)) = [] ∧
    DiagnosticEvent.writeReadError ∉
      publishedEvents (HAL_I2C_ErrorCallback true (List.replicate 10 0)) ∧
    DiagnosticEvent.peripheralReinitialized ∉
      publishedEvents (HAL_I2C_ErrorCallback true (List.replicate 10 0)) ∧
    I2CAction.peripheralStop ∉ HAL_I2C_ErrorCallback true (List.replicate 10 0) := by
  refine ⟨rfl, rfl, ?_, ?_, ?_⟩ <;>
    simp [HAL_I2C_ErrorCallback, publishedEvents]

/-- C5 (amended): on every transfer error on the I2C1 instance the error
callback re-arms slave transmission of the 10-byte buffer as its only
action, so the peripheral is immediately listening again and can serve the
next read; it publishes no diagnostic events and does not stop or
reconfigure the peripheral. -/
theorem c5_error_rearm_only (buf : List ℕ) :
    HAL_I2C_ErrorCallback true buf = [I2CAction.rearmSlaveTransmit buf 10] ∧
    publishedEvents (HAL_I2C_ErrorCallback true buf) = [] ∧
    I2CAction.rearmSlaveTransmit buf 10 ∈ HAL_I2C_ErrorCallback true buf := by
  refine ⟨rfl, rfl, ?_⟩
  simp [HAL_I2C_ErrorCallback]

/-- C6 counterexample: the sampling path keeps no history and does no
oversampling burst: with the sample stream 0 then 4095, the first call
consumes exactly one sample and returns 0 V, and the second call returns
3.3 V, the scaled current reading alone, not the mean of the two entries
written so far (which would be the scaled integer average 2047). -/
theorem c6_counterexample :
    (read_sensor_voltage [0, 4095]).1 = 0 ∧
    (read_sensor_voltage [0, 4095]).2 = [4095] ∧
    (read_sensor_voltage [4095]).1 = 33/10 ∧
    (read_sensor_voltage [4095]).1 ≠ (((0 + 4095) / 2 : ℕ) : ℚ) * (33/10) / 4095 := by
  refine ⟨?_, rfl, ?_, ?_⟩ <;> norm_num [read_sensor_voltage]

/-- C6 (amended): each call of read_sensor_voltage performs exactly one
ADC conversion, consuming one sample, and returns that single reading
scaled by 3.3/4095 (0.0 when polling fails); there is no oversampling
burst, no circular history and no windowed mean, and
measure_sensor_values converts the two single readings directly through
the calibration tables. -/
theorem c6_single_conversion (rawValue r1 r2 : ℕ) (rest rest2 : List ℕ)
    (tables : Fin 2 → CalTable) :
    read_sensor_voltage (rawValue :: rest) =
      ((rawValue : ℚ) * (33/10) / 4095, rest) ∧
    read_sensor_voltage [] = (0, []) ∧
    (measure_sensor_values tables (r1 :: r2 :: rest2)).1 =
      (convert_voltage_to_mm tables ((r1 : ℚ) * (33/10) / 4095) 0,
       convert_voltage_to_mm tables ((r2 : ℚ) * (33/10) / 4095) 1) ∧
    (measure_sensor_values tables (r1 :: r2 :: rest2)).2 = rest2 :=
  ⟨rfl, rfl, rfl, rfl⟩

/-- C10: from reset until the first main-loop iteration runs
update_buffer, the bus peripheral is armed with the zero-initialized
10-byte tx_buffer: a read served in that window returns ten zero bytes,
decoding to 0.0 mm on both channels, and not the encoding
[1,7,5,0,0,1,7,5,0,0] of the 1.75 mm in-memory defaults of sensor1_mm and
sensor2_mm. -/
theorem c10_startup_zero_buffer :
    armed_startup_buffer = List.replicate 10 0 ∧
    armed_startup_buffer.length = 10 ∧
    host_decode (armed_startup_buffer.take 5) = 0 ∧
    host_decode (armed_startup_buffer.drop 5) = 0 ∧
    update_buffer resetState.sensor1_mm resetState.sensor2_mm =
      [1, 7, 5, 0, 0, 1, 7, 5, 0, 0] ∧
    armed_startup_buffer ≠
      update_buffer resetState.sensor1_mm resetState.sensor2_mm := by
  have hu : update_buffer resetState.sensor1_mm resetState.sensor2_mm =
      [1, 7, 5, 0, 0, 1, 7, 5, 0, 0] := by
    show update_buffer (7/4) (7/4) = _
    unfold update_buffer
    rw [format_sensor_data_of_default]
    decide
  refine ⟨rfl, rfl, ?_, ?_, hu, ?_⟩
  · norm_num [armed_startup_buffer, i2c_slave_transmit, resetState, host_decode]
  · norm_num [armed_startup_buffer, i2c_slave_transmit, resetState, host_decode]
  · rw [hu]; decide

end SensorModule
